import Mathlib

/-
Verification of the recipe-catalog search / classification core
(`src/recipes/models.py`, `src/recipes/views.py`, `src/recipes/forms.py`).

Python strings are modelled as `List Char`; string literals appear as
`"...".data`.  The small helpers prefixed `py` model the Python string
built-ins the source uses (`str.strip`, `str.split`, `str.lower`,
`str.replace` with a one-character needle, the `in` substring operator,
and the `int` constructor).  Fallible code (Python exceptions) is
modelled with `Except`.
-/

/-- Models Python's default `str.strip` whitespace set (the ASCII part:
space, tab, newline, carriage return, vertical tab, form feed). -/
def pySpace (c : Char) : Bool :=
  c = ' ' || c = '\t' || c = '\n' || c = '\r' || c = '\x0b' || c = '\x0c'

/-- Leading-whitespace removal, as in Python `str.lstrip()`. -/
def pyLstrip (s : List Char) : List Char :=
  s.dropWhile pySpace

/-- Trailing-whitespace removal, as in Python `str.rstrip()`. -/
def pyRstrip (s : List Char) : List Char :=
  (s.reverse.dropWhile pySpace).reverse

/-- Models Python `str.strip()` (no argument): drop leading and trailing
whitespace. -/
def pyStrip (s : List Char) : List Char :=
  pyRstrip (pyLstrip s)

/-- Models Python `str.split(sep)` for a one-character separator `sep`:
`"".split(",") = [""]`, `",".split(",") = ["", ""]`, etc. -/
def pySplit (sep : Char) : List Char → List (List Char)
  | [] => [[]]
  | c :: cs =>
    if c = sep then [] :: pySplit sep cs
    else
      match pySplit sep cs with
      | [] => [[c]]
      | h :: t => (c :: h) :: t

/-- Models Python `str.lower` (ASCII case folding, which is all the
source's inputs use). -/
def pyLower (s : List Char) : List Char :=
  s.map Char.toLower

/-- Models Python `str.replace(old, new)` for a one-character `old`:
every occurrence of `old` is replaced by `new`. -/
def pyReplaceChar (old : Char) (new : List Char) : List Char → List Char
  | [] => []
  | c :: cs => (if c = old then new else [c]) ++ pyReplaceChar old new cs

/-- `pyStartsWith n h`: `h` starts with `n`. -/
def pyStartsWith : List Char → List Char → Bool
  | [], _ => true
  | _ :: _, [] => false
  | a :: as, b :: bs => a = b && pyStartsWith as bs

/-- Models the Python substring operator `needle in hay`. -/
def pySubstr (needle : List Char) : List Char → Bool
  | [] => pyStartsWith needle []
  | c :: t => pyStartsWith needle (c :: t) || pySubstr needle t

/-- Decimal digit-string value: `none` unless the string is a non-empty
run of ASCII digits. -/
def pyDigitsVal : List Char → Option Nat
  | [] => none
  | d :: ds =>
    if (d :: ds).all Char.isDigit then
      some ((d :: ds).foldl (fun acc c => acc * 10 + (c.toNat - 48)) 0)
    else none

/-- Models the Python built-in `int()` applied to a string: surrounding
whitespace is stripped, an optional sign is allowed, and the rest must be
a non-empty run of decimal digits; `none` models the `ValueError` raised
otherwise.  (Python's numeric-separator underscores are not modelled; no
input in the claims uses them.) -/
def pyInt (s : List Char) : Option Int :=
  match pyStrip s with
  | '+' :: rest => (pyDigitsVal rest).map Int.ofNat
  | '-' :: rest => (pyDigitsVal rest).map (fun n => -(Int.ofNat n : Int))
  | t => (pyDigitsVal t).map Int.ofNat

/-- The `Recipe` model of `src/recipes/models.py` (the fields the search
and classification core reads).  `difficulty` is an `Option` because the
Python method `calculate_difficulty` can in principle return `None` (its
`if/elif` chain has no `else`), and `save` stores its result verbatim. -/
structure Recipe where
  id : Nat
  name : List Char
  short_description : List Char
  ingredients : List Char
  cooking_time : Int
  difficulty : Option (List Char)
  likes : Int := 0
  comments : List Char := []
  references : List Char := []
  recipe_image : List Char := "recipes/no_picture.png".data

/-- `Recipe.return_ingredients_as_list` (models.py): `None` or a string
that is empty, or empty after stripping, gives `[]`; otherwise split on
`','`, strip each segment and keep the non-empty ones.  The argument is
`Option (List Char)` because the Python attribute can be `None` on an
unsaved instance. -/
def Recipe.return_ingredients_as_list (ingredients : Option (List Char)) :
    List (List Char) :=
  match ingredients with
  | none => []
  | some s =>
    if s.isEmpty || (pyStrip s).isEmpty then []
    else ((pySplit ',' s).map pyStrip).filter (fun t => !t.isEmpty)

/-- The decision table of `Recipe.calculate_difficulty` (models.py),
factored over its two inputs, i.e. the `classify` contract of spec §4.2:
thresholds at `cooking_time = 10` and `ingredient_count = 4`. -/
def classify (cooking_time : Int) (num_ingredients : Nat) :
    Option (List Char) :=
  if cooking_time < 10 ∧ num_ingredients < 4 then some "Easy".data
  else if cooking_time < 10 ∧ num_ingredients ≥ 4 then some "Medium".data
  else if cooking_time ≥ 10 ∧ num_ingredients < 4 then some "Intermediate".data
  else if cooking_time ≥ 10 ∧ num_ingredients ≥ 4 then some "Hard".data
  else none

/-- `Recipe.calculate_difficulty` (models.py): parse the ingredients,
count them, and run the `if/elif` decision chain. -/
def Recipe.calculate_difficulty (cooking_time : Int)
    (ingredients : Option (List Char)) : Option (List Char) :=
  let num_ingredients := (Recipe.return_ingredients_as_list ingredients).length
  classify cooking_time num_ingredients

/-- `Recipe.save` (models.py): recompute `difficulty` from the current
`cooking_time` and `ingredients` immediately before persisting; every
other field is stored as-is. -/
def Recipe.save (r : Recipe) : Recipe :=
  { r with difficulty := Recipe.calculate_difficulty r.cooking_time (some r.ingredients) }

/-
The record store boundary (spec §6): a case-insensitive pattern filter
"supporting a regex-like 'any sequence' / 'single character' construct".
The view hands Django's `iregex` a pattern built by the substitutions
`'*' → ".*"` and `'?' → "."`, and `iregex` performs an UNANCHORED,
case-insensitive regular-expression search.  We model exactly the
construct set the boundary advertises: `.` matches any single character,
a postfix `*` is Kleene star of the preceding atom, and every other
character matches itself up to case.
-/

/-- One compiled pattern token: `one p` matches a single character
(`p = '.'` matches anything), `star p` matches zero or more such
characters. -/
inductive RTok where
  | one (p : Char)
  | star (p : Char)
deriving DecidableEq

/-- Compile a pattern string to tokens: a character followed by `*`
becomes a starred atom, any other character a single atom. -/
def rtokens : List Char → List RTok
  | [] => []
  | [p] => [RTok.one p]
  | p :: r :: rest =>
    if r = '*' then RTok.star p :: rtokens rest
    else RTok.one p :: rtokens (r :: rest)

/-- Single-character pattern-atom match, case-insensitively: `'.'`
matches every character, any other atom matches characters equal to it
up to lowercasing (models the `i` of `iregex`). -/
def pchar (p c : Char) : Bool :=
  p = '.' || p.toLower = c.toLower

/-- Backtracking loop for a starred atom `p`: run the continuation `k`
(the rest of the pattern) after consuming zero or more characters
matching `p`. -/
def starLoop (p : Char) (k : List Char → Bool) : List Char → Bool
  | [] => k []
  | c :: cs => k (c :: cs) || (pchar p c && starLoop p k cs)

/-- Anchored token-list match against a string (the classic backtracking
matcher: a starred atom consumes zero or more matching characters before
the rest of the pattern continues). -/
def rtMatch : List RTok → List Char → Bool
  | [], _ => true
  | RTok.one _ :: _, [] => false
  | RTok.one p :: ts, c :: cs => pchar p c && rtMatch ts cs
  | RTok.star p :: ts, s => starLoop p (rtMatch ts) s

/-- Unanchored search: try an anchored match at every suffix (models
`re.search`, which Django's `iregex` performs — no implicit `^`/`$`). -/
def rsearchToks (ts : List RTok) : List Char → Bool
  | [] => rtMatch ts []
  | c :: cs => rtMatch ts (c :: cs) || rsearchToks ts cs

/-- The record store's case-insensitive pattern filter: compile the
pattern and search unanchored. -/
def iregexMatch (pat target : List Char) : Bool :=
  rsearchToks (rtokens pat) target

/-- A Django `Q` object as `process_wildcard_search` builds it: either
`Q(name__icontains=pat)` or `Q(name__iregex=pat)`. -/
inductive Q where
  | icontains (pat : List Char)
  | iregex (pat : List Char)
deriving DecidableEq

/-- Predicate semantics of the two `Q` shapes against a record:
`icontains` is case-insensitive substring containment on `name`,
`iregex` the unanchored case-insensitive pattern search on `name`. -/
def evalQ (q : Q) (r : Recipe) : Bool :=
  match q with
  | Q.icontains pat => pySubstr (pyLower pat) (pyLower r.name)
  | Q.iregex pat => iregexMatch pat r.name

/-- The wildcard-to-regex substitution of views.py:
`pattern = search_term.replace('*', '.*').replace('?', '.')`. -/
def wildPattern (t : List Char) : List Char :=
  pyReplaceChar '?' ['.'] (pyReplaceChar '*' ['.', '*'] t)

/-- `process_wildcard_search` (views.py, lines 12–38): falsy input
(`None` or `""`) gives `None`; otherwise the term is stripped, and a
term containing `*` or `?` becomes an `iregex` `Q` on the substituted
pattern while any other term becomes an `icontains` `Q`. -/
def process_wildcard_search (search_term : Option (List Char)) : Option Q :=
  match search_term with
  | none => none
  | some s =>
    if s.isEmpty then none
    else
      let t := pyStrip s
      if t.contains '*' || t.contains '?' then
        some (Q.iregex (wildPattern t))
      else
        some (Q.icontains t)

/-- The POST fields `recipe_search` (views.py) reads; `none` models an
absent key, `some []` an empty string. -/
structure SearchPost where
  search_action : Option (List Char)
  recipe_name : Option (List Char)
  ingredients : Option (List Char)
  cooking_time_max : Option (List Char)
  difficulty : Option (List Char)

/-- Python truthiness of an optional string: `None` and `""` are falsy. -/
def truthy : Option (List Char) → Bool
  | none => false
  | some s => !s.isEmpty

/-- The per-token ingredient filter of `recipe_search` (views.py, lines
84–91): a token containing `*` or `?` is turned into an `iregex` filter
on the `ingredients` field via the same substitution, any other token
into an `icontains` filter. -/
def ingredientTokenPred (tok : List Char) (r : Recipe) : Bool :=
  if tok.contains '*' || tok.contains '?' then
    iregexMatch (wildPattern tok) r.ingredients
  else
    pySubstr (pyLower tok) (pyLower r.ingredients)

/-- Whether one record satisfies the query `recipe_search` (views.py,
lines 56–99) builds from a POST.  When `search_action = "search"` the
four criteria are chained with AND, each applied only when its field is
truthy; otherwise (`"show_all"`) no filter is applied.  A truthy
non-numeric `cooking_time_max` makes the view call `int()` on it, which
raises `ValueError`; that crash is the `Except.error` case. -/
def recipe_search_matches (p : SearchPost) (r : Recipe) : Except Unit Bool :=
  if p.search_action = some "search".data then
    let nameOk : Bool :=
      if truthy p.recipe_name then
        match process_wildcard_search p.recipe_name with
        | some q => evalQ q r
        | none => true
      else true
    let ingOk : Bool :=
      if truthy p.ingredients then
        (((pySplit ',' (p.ingredients.getD [])).map pyStrip).filter
            (fun t => !t.isEmpty)).all
          (fun tok => ingredientTokenPred tok r)
      else true
    let diffOk : Bool :=
      if truthy p.difficulty then
        decide (r.difficulty = some (p.difficulty.getD []))
      else true
    if truthy p.cooking_time_max then
      match pyInt (p.cooking_time_max.getD []) with
      | some v => Except.ok (nameOk && ingOk && decide (r.cooking_time ≤ v) && diffOk)
      | none => Except.error ()
    else Except.ok (nameOk && ingOk && diffOk)
  else Except.ok true

/-- One row of the tabular summary `recipe_search` builds (views.py,
lines 102–118). -/
structure SummaryRow where
  id : Nat
  name : List Char
  cooking_time : Int
  difficulty : Option (List Char)
  ingredients : List Char
  ingredient_count : Nat
  short_description : List Char
  recipe_image_url : List Char
  detail_url : List Char
deriving DecidableEq

/-- The summary row built for one record: `ingredient_count` is
recomputed from the `ingredients` string (`len([... if ing.strip()])` if
the string is truthy, else `0`), not read from storage. -/
def summaryRowOf (r : Recipe) : SummaryRow :=
  { id := r.id
    name := r.name
    cooking_time := r.cooking_time
    difficulty := r.difficulty
    ingredients := r.ingredients
    ingredient_count :=
      if !r.ingredients.isEmpty then
        (((pySplit ',' r.ingredients).map pyStrip).filter
            (fun t => !t.isEmpty)).length
      else 0
    short_description := r.short_description
    recipe_image_url := "/static/images/".data ++ r.recipe_image
    detail_url := "/recipes/".data ++ (Nat.repr r.id).data ++ "/".data }

/-- The result aggregator: the `for recipe in qs` loop of `recipe_search`
(views.py, lines 102–118), one summary row per record in input order. -/
def aggregate (records : List Recipe) : List SummaryRow :=
  records.map summaryRowOf

/-
Spec-side definitions, for the refinement claims: these follow the
SPEC's words, to be compared with the view/model definitions above.
-/

/-- Follows the spec's words (§4.1 `parse_ingredients` contract): split
on `,`, trim each segment, discard segments that are empty after
trimming; `None` gives the empty list. -/
def parse_ingredients (raw : Option (List Char)) : List (List Char) :=
  match raw with
  | none => []
  | some s => ((pySplit ',' s).map pyStrip).filter (fun t => !t.isEmpty)

/-- Backtracking loop for the spec's `*` wildcard ("any sequence of zero
or more characters"): run the continuation after skipping any number of
characters. -/
def globStar (k : List Char → Bool) : List Char → Bool
  | [] => k []
  | c :: cs => k (c :: cs) || globStar k cs

/-- Follows the spec's words (§4.3): anchored match of a wildcard term
where every `*` matches any sequence of zero or more characters, every
`?` matches exactly one arbitrary character, and ALL other characters
are matched literally (case-insensitively). -/
def specGlobHere : List Char → List Char → Bool
  | [], _ => true
  | p :: ps, s =>
    if p = '*' then globStar (specGlobHere ps) s
    else
      match s with
      | [] => false
      | c :: cs => (p = '?' || p.toLower = c.toLower) && specGlobHere ps cs

/-- Follows the spec's words (§4.3 together with the §9 open question):
the UNANCHORED substring match of the literal wildcard pattern — the
term matches if it matches at some position of the target. -/
def specGlobSearch (t : List Char) : List Char → Bool
  | [] => specGlobHere t []
  | c :: cs => specGlobHere t (c :: cs) || specGlobSearch t cs

/-- The token list the wildcard substitution ought to produce, one token
per term character: `*` an any-character star, `?` a single
any-character atom, anything else a single literal atom. -/
def wildToks : List Char → List RTok
  | [] => []
  | c :: t =>
    (if c = '*' then RTok.star '.'
     else if c = '?' then RTok.one '.'
     else RTok.one c) :: wildToks t

/-
Sample records (the three-record data set of spec §8, property 9), used
as concrete inputs by the witnesses.
-/

def pastaPesto : Recipe :=
  { id := 1, name := "Pasta al Pesto".data, short_description := [],
    ingredients := "pasta, pesto, cheese, garlic".data, cooking_time := 10,
    difficulty := some "Hard".data }

def pizzaMargherita : Recipe :=
  { id := 2, name := "Pizza Margherita".data, short_description := [],
    ingredients := "dough, tomato, cheese, basil".data, cooking_time := 5,
    difficulty := some "Medium".data }

def summerSalad : Recipe :=
  { id := 3, name := "Summer Salad".data, short_description := [],
    ingredients := "lettuce, tomato, cucumber, olive oil".data, cooking_time := 15,
    difficulty := some "Hard".data }

/-
Helper lemmas about the Python-string helpers.
-/

/-- If a string strips to empty, every character of it is whitespace. -/
theorem all_space_of_strip_nil (s : List Char) (h : pyStrip s = []) :
    ∀ x ∈ s, pySpace x := by
  unfold pyStrip pyRstrip pyLstrip at h
  have h1 : (s.dropWhile pySpace).reverse.dropWhile pySpace = [] := by
    have h0 := congrArg List.reverse h
    simpa using h0
  have h2 := List.dropWhile_eq_nil_iff.mp h1
  have h3 : ∀ x ∈ s.dropWhile pySpace, pySpace x :=
    fun x hx => h2 x (List.mem_reverse.mpr hx)
  intro x hx
  have hsplit := List.takeWhile_append_dropWhile pySpace s
  rw [← hsplit] at hx
  rcases List.mem_append.mp hx with hx1 | hx2
  · exact List.mem_takeWhile_imp hx1
  · exact h3 x hx2

/-- A string of whitespace strips to empty. -/
theorem strip_nil_of_all_space (s : List Char) (h : ∀ x ∈ s, pySpace x) :
    pyStrip s = [] := by
  unfold pyStrip pyLstrip pyRstrip
  rw [List.dropWhile_eq_nil_iff.mpr h]
  rfl

/-- A whitespace-only string contains no comma, so splitting on `','`
returns it as the single segment. -/
theorem pySplit_all_space (s : List Char) (h : ∀ x ∈ s, pySpace x) :
    pySplit ',' s = [s] := by
  induction s with
  | nil => rfl
  | cons c cs ih =>
    have hc : pySpace c := h c (by simp)
    have hcomma : ¬ (c = ',') := by
      intro hh
      subst hh
      exact absurd hc (by decide)
    have ih2 := ih (fun x hx => h x (by simp [hx]))
    simp [pySplit, hcomma, ih2]

/-- The split-strip-drop pipeline yields nothing on a string that strips
to empty. -/
theorem parse_strip_nil (s : List Char) (h : pyStrip s = []) :
    ((pySplit ',' s).map pyStrip).filter (fun t => !t.isEmpty) = [] := by
  rw [pySplit_all_space s (all_space_of_strip_nil s h)]
  simp [h]

/-- The empty needle is a substring of everything (Python `"" in s`). -/
theorem pySubstr_nil_left (l : List Char) : pySubstr [] l = true := by
  cases l <;> simp [pySubstr, pyStartsWith]

/-- C1: for every non-negative cooking time and every ingredient count,
the difficulty classifier returns exactly one of the four labels, and
the mapping follows the decision table of spec §4.2 (thresholds 10 and
4, strict below, inclusive above — so in particular at the boundary
values 9/10 and 3/4); moreover `Recipe.calculate_difficulty` is exactly
this classifier applied to the parsed ingredient count. -/
theorem classify_decision_table (t : Int) (n : Nat) (h : 0 ≤ t) :
    (classify t n = some "Easy".data ∨ classify t n = some "Medium".data ∨
      classify t n = some "Intermediate".data ∨ classify t n = some "Hard".data) ∧
    (t < 10 ∧ n < 4 → classify t n = some "Easy".data) ∧
    (t < 10 ∧ 4 ≤ n → classify t n = some "Medium".data) ∧
    (10 ≤ t ∧ n < 4 → classify t n = some "Intermediate".data) ∧
    (10 ≤ t ∧ 4 ≤ n → classify t n = some "Hard".data) ∧
    (∀ ing, Recipe.calculate_difficulty t ing
        = classify t (Recipe.return_ingredients_as_list ing).length) := by
  refine ⟨?_, ?_, ?_, ?_, ?_, fun ing => rfl⟩ <;>
    unfold classify <;>
    split_ifs with h1 h2 h3 h4 <;>
    simp_all

/-- Witness for `classify_decision_table` at the boundary input
`(10, 4)`. -/
theorem classify_decision_table_witness :
    classify 10 4 = some "Hard".data :=
  (classify_decision_table 10 4 (by decide)).2.2.2.2.1 ⟨by decide, by decide⟩

/-- C8: persisting recomputes `difficulty` from the current
`cooking_time` and the parsed ingredient count; a previously stored
`difficulty` value has no influence on the result (it is not
independently settable through a save), and no other field changes. -/
theorem save_recomputes_difficulty (r : Recipe) (d : Option (List Char)) :
    (Recipe.save r).difficulty
      = classify r.cooking_time
          (Recipe.return_ingredients_as_list (some r.ingredients)).length ∧
    Recipe.save { r with difficulty := d } = Recipe.save r ∧
    (Recipe.save r).name = r.name ∧
    (Recipe.save r).ingredients = r.ingredients ∧
    (Recipe.save r).cooking_time = r.cooking_time ∧
    (Recipe.save r).id = r.id :=
  ⟨rfl, rfl, rfl, rfl, rfl, rfl⟩

/-- C2: the model's ingredient parser implements the spec's
`parse_ingredients` contract exactly — `None` and empty/whitespace-only
strings give the empty list, any other string is split on `','`, each
segment trimmed, empties dropped; the result is a sublist of the trimmed
segments (order and duplicates preserved).  Totality ("never fails") is
immediate: the function is a total Lean function. -/
theorem return_ingredients_as_list_spec :
    (∀ raw, Recipe.return_ingredients_as_list raw = parse_ingredients raw) ∧
    Recipe.return_ingredients_as_list none = [] ∧
    (∀ s, pyStrip s = [] → Recipe.return_ingredients_as_list (some s) = []) ∧
    (∀ s, (Recipe.return_ingredients_as_list (some s)).Sublist
        ((pySplit ',' s).map pyStrip)) := by
  have hmain : ∀ raw, Recipe.return_ingredients_as_list raw = parse_ingredients raw := by
    intro raw
    cases raw with
    | none => rfl
    | some s =>
      show (if s.isEmpty || (pyStrip s).isEmpty then []
            else ((pySplit ',' s).map pyStrip).filter (fun t => !t.isEmpty))
          = ((pySplit ',' s).map pyStrip).filter (fun t => !t.isEmpty)
      by_cases hcond : (s.isEmpty || (pyStrip s).isEmpty) = true
      · rw [if_pos hcond]
        have hstrip : pyStrip s = [] := by
          rcases Bool.or_eq_true_iff.mp hcond with h1 | h1
          · rw [List.isEmpty_iff.mp h1]; rfl
          · exact List.isEmpty_iff.mp h1
        exact (parse_strip_nil s hstrip).symm
      · rw [if_neg hcond]
  refine ⟨hmain, rfl, ?_, ?_⟩
  · intro s hs
    rw [hmain (some s)]
    unfold parse_ingredients
    exact parse_strip_nil s hs
  · intro s
    rw [hmain (some s)]
    unfold parse_ingredients
    exact List.filter_sublist _

/-- Witness for `return_ingredients_as_list_spec` on the whitespace-only
string `" "`. -/
theorem return_ingredients_as_list_spec_witness :
    Recipe.return_ingredients_as_list (some " ".data) = [] :=
  return_ingredients_as_list_spec.2.2.1 " ".data (by decide)

/-- The per-row ingredient count the view recomputes agrees with the
length of the model parser's result on the same string (the view guards
with string truthiness instead of the parser's strip test, but the two
computations agree on every string). -/
theorem count_recomputed (r : Recipe) :
    (summaryRowOf r).ingredient_count
      = (Recipe.return_ingredients_as_list (some r.ingredients)).length := by
  simp only [summaryRowOf]
  unfold Recipe.return_ingredients_as_list
  by_cases h1 : r.ingredients.isEmpty
  · simp [h1]
  · by_cases h2 : (pyStrip r.ingredients).isEmpty
    · have h3 := parse_strip_nil r.ingredients (List.isEmpty_iff.mp h2)
      simp [h1, h2, h3]
    · simp [h1, h2]

/-- C9: the aggregator yields the empty row list on the empty record
list, one row per record, and the `i`-th row carries the `i`-th record's
fields in input order, with `ingredient_count` recomputed from that
record's `ingredients` string (equal to the parsed list's length), not
read from storage. -/
theorem aggregate_rows (rs : List Recipe) :
    aggregate ([] : List Recipe) = [] ∧
    (aggregate rs).length = rs.length ∧
    ∀ i : Nat, i < rs.length →
      ((aggregate rs)[i]?).map SummaryRow.id = (rs[i]?).map Recipe.id ∧
      ((aggregate rs)[i]?).map SummaryRow.name = (rs[i]?).map Recipe.name ∧
      ((aggregate rs)[i]?).map SummaryRow.cooking_time
        = (rs[i]?).map Recipe.cooking_time ∧
      ((aggregate rs)[i]?).map SummaryRow.difficulty
        = (rs[i]?).map Recipe.difficulty ∧
      ((aggregate rs)[i]?).map SummaryRow.ingredient_count
        = (rs[i]?).map
            (fun r => (Recipe.return_ingredients_as_list (some r.ingredients)).length) := by
  refine ⟨rfl, by simp [aggregate], fun i hi => ?_⟩
  have hmap : (aggregate rs)[i]? = (rs[i]?).map summaryRowOf := by
    unfold aggregate
    exact List.getElem?_map summaryRowOf rs i
  rw [hmap]
  cases h : rs[i]? with
  | none => simp
  | some r =>
    simp only [Option.map_some']
    exact ⟨rfl, rfl, rfl, rfl, congrArg some (count_recomputed r)⟩

/-- Witness for `aggregate_rows` on the one-record list
`[pizzaMargherita]` at index 0. -/
theorem aggregate_rows_witness :
    ((aggregate [pizzaMargherita])[0]?).map SummaryRow.ingredient_count
      = (([pizzaMargherita] : List Recipe)[0]?).map
          (fun r => (Recipe.return_ingredients_as_list (some r.ingredients)).length) :=
  ((aggregate_rows [pizzaMargherita]).2.2 0 (by decide)).2.2.2.2

/-- C10: a non-empty but whitespace-only search term is truthy, so the
translator does not return `None`: it strips the term to the empty
string, finds no wildcard in it, and returns the case-insensitive
substring predicate with the empty pattern — which every record
satisfies, a match-everything filter rather than the absent filter. -/
theorem whitespace_term_matches_all (s : List Char)
    (h1 : s ≠ []) (h2 : ∀ x ∈ s, pySpace x) :
    process_wildcard_search (some s) = some (Q.icontains []) ∧
    ∀ r : Recipe, evalQ (Q.icontains []) r = true := by
  have hstrip : pyStrip s = [] := strip_nil_of_all_space s h2
  constructor
  · unfold process_wildcard_search
    have hne : s.isEmpty = false := by
      cases s with
      | nil => exact absurd rfl h1
      | cons c cs => rfl
    simp [hne, hstrip]
  · intro r
    simp [evalQ, pyLower, pySubstr_nil_left]

/-- Witness for `whitespace_term_matches_all` on the one-space term. -/
theorem whitespace_term_matches_all_witness :
    process_wildcard_search (some [' ']) = some (Q.icontains []) ∧
    evalQ (Q.icontains []) pastaPesto = true :=
  ⟨(whitespace_term_matches_all [' '] (by decide) (by decide)).1,
    (whitespace_term_matches_all [' '] (by decide) (by decide)).2 pastaPesto⟩

/-
The wildcard substitution versus the spec's literal glob semantics.
-/

theorem pyReplaceChar_append (o : Char) (n a b : List Char) :
    pyReplaceChar o n (a ++ b) = pyReplaceChar o n a ++ pyReplaceChar o n b := by
  induction a with
  | nil => rfl
  | cons c cs ih => simp [pyReplaceChar, ih, List.append_assoc]

/-- One step of the substitution `'*' → ".*"`, `'?' → "."`. -/
theorem wildPattern_cons (c : Char) (t : List Char) :
    wildPattern (c :: t)
      = (if c = '*' then ['.', '*'] else if c = '?' then ['.'] else [c])
        ++ wildPattern t := by
  unfold wildPattern
  by_cases h1 : c = '*'
  · subst h1
    simp [pyReplaceChar, pyReplaceChar_append]
  · by_cases h2 : c = '?'
    · subst h2
      simp [pyReplaceChar, pyReplaceChar_append]
    · simp [pyReplaceChar, pyReplaceChar_append, h1, h2]

/-- A substituted pattern never starts with `'*'` (every `'*'` of the
term is emitted as `".*"`). -/
theorem wildPattern_head_ne_star (t : List Char) :
    ∀ rest : List Char, wildPattern t ≠ '*' :: rest := by
  intro rest
  cases t with
  | nil => simp [wildPattern, pyReplaceChar]
  | cons c t =>
    rw [wildPattern_cons]
    by_cases h1 : c = '*'
    · subst h1
      simp
    · by_cases h2 : c = '?'
      · subst h2
        simp
      · simp [h1, h2]

/-- When the tail cannot begin with `'*'`, the tokenizer emits the head
as a single atom. -/
theorem rtokens_cons_of_head (a : Char) (l : List Char)
    (h : ∀ rest, l ≠ '*' :: rest) :
    rtokens (a :: l) = RTok.one a :: rtokens l := by
  cases l with
  | nil => rfl
  | cons x xs =>
    have hx : ¬ (x = '*') := fun hh => h xs (by rw [hh])
    simp [rtokens, hx]

/-- Tokenizing a substituted pattern gives exactly one token per term
character: `*` a star atom, `?` an any atom, anything else a literal. -/
theorem rtokens_wildPattern (t : List Char) :
    rtokens (wildPattern t) = wildToks t := by
  induction t with
  | nil => rfl
  | cons c t ih =>
    rw [wildPattern_cons]
    by_cases h1 : c = '*'
    · subst h1
      simp [rtokens, wildToks, ih]
    · by_cases h2 : c = '?'
      · subst h2
        have hcons := rtokens_cons_of_head '.' (wildPattern t) (wildPattern_head_ne_star t)
        simp only [if_neg h1, if_pos rfl, List.singleton_append]
        simp [hcons, wildToks, ih]
      · have hcons := rtokens_cons_of_head c (wildPattern t) (wildPattern_head_ne_star t)
        simp only [if_neg h1, if_neg h2, List.singleton_append]
        simp [hcons, wildToks, ih, h1, h2]

/-- The regex backtracking loop for the any-character star coincides with
the spec's any-sequence loop whenever the continuations agree. -/
theorem starLoop_globStar (k k2 : List Char → Bool)
    (hk : ∀ x, k x = k2 x) (s : List Char) :
    starLoop '.' k s = globStar k2 s := by
  induction s with
  | nil => simp [starLoop, globStar, hk]
  | cons c cs ih => simp [starLoop, globStar, hk, pchar, ih]

/-- On a term free of `'.'`, the anchored regex match of the substituted
pattern is exactly the spec's anchored literal-glob match. -/
theorem rtMatch_wildToks (t : List Char) (h : '.' ∉ t) :
    ∀ s, rtMatch (wildToks t) s = specGlobHere t s := by
  induction t with
  | nil => intro s; rfl
  | cons c t ih =>
    have hc : c ≠ '.' := fun hh => h (hh ▸ List.mem_cons_self c t)
    have ht : '.' ∉ t := fun hh => h (List.mem_cons_of_mem c hh)
    intro s
    by_cases h1 : c = '*'
    · subst h1
      show rtMatch (RTok.star '.' :: wildToks t) s = specGlobHere ('*' :: t) s
      simp only [rtMatch, specGlobHere, if_pos rfl]
      exact starLoop_globStar _ _ (ih ht) s
    · by_cases h2 : c = '?'
      · subst h2
        cases s with
        | nil => simp [wildToks, rtMatch, specGlobHere, h1]
        | cons x xs =>
          simp [wildToks, rtMatch, specGlobHere, h1, pchar, ih ht xs]
      · cases s with
        | nil => simp [wildToks, rtMatch, specGlobHere, h1, h2]
        | cons x xs =>
          simp [wildToks, rtMatch, specGlobHere, h1, h2, pchar, hc, ih ht xs]

/-- On a term free of `'.'`, the unanchored case-insensitive regex
search of the substituted pattern is exactly the spec's unanchored
literal-glob search. -/
theorem iregex_spec_glob (t target : List Char) (h : '.' ∉ t) :
    iregexMatch (wildPattern t) target = specGlobSearch t target := by
  unfold iregexMatch
  rw [rtokens_wildPattern]
  induction target with
  | nil => simp [rsearchToks, specGlobSearch, rtMatch_wildToks t h]
  | cons c cs ihc => simp [rsearchToks, specGlobSearch, rtMatch_wildToks t h, ihc]

/-- C3 counterexample: the claim "all other characters are matched
literally" fails, because the term is substituted into a regular
expression without escaping.  For the term `"a.?"` the translator
returns the `iregex` predicate on the pattern `"a.."`, which matches the
name `"abc"` (the term's literal `'.'` behaves as the any-character
metacharacter), while the spec's literal-wildcard predicate does not
match `"abc"`. -/
theorem wildcard_literal_counterexample :
    process_wildcard_search (some "a.?".data) = some (Q.iregex "a..".data) ∧
    evalQ (Q.iregex "a..".data)
      { id := 9, name := "abc".data, short_description := [],
        ingredients := "x".data, cooking_time := 1, difficulty := none } = true ∧
    specGlobSearch "a.?".data "abc".data = false :=
  ⟨by decide, by decide, by decide⟩

/-- C3 (amended): the translator returns `None` exactly on `None`/empty
input; a non-empty term with a wildcard in its trimmed form becomes the
case-insensitive unanchored pattern predicate of the substituted pattern
(`'*' → ".*"`, `'?' → "."`), any other non-empty term the
case-insensitive substring predicate of its trimmed form; and on terms
free of the regex metacharacter `'.'` the pattern predicate coincides
exactly with the spec's literal semantics (every `*` any sequence, every
`?` exactly one character, all remaining characters literal,
case-insensitive, unanchored). -/
theorem wildcard_translate_amended :
    process_wildcard_search none = none ∧
    process_wildcard_search (some []) = none ∧
    (∀ t, t ≠ [] →
      ((pyStrip t).contains '*' || (pyStrip t).contains '?') = true →
      process_wildcard_search (some t)
        = some (Q.iregex (wildPattern (pyStrip t)))) ∧
    (∀ t, t ≠ [] →
      ((pyStrip t).contains '*' || (pyStrip t).contains '?') = false →
      process_wildcard_search (some t) = some (Q.icontains (pyStrip t))) ∧
    (∀ t target, '.' ∉ t →
      iregexMatch (wildPattern t) target = specGlobSearch t target) := by
  refine ⟨rfl, rfl, ?_, ?_, fun t target h => iregex_spec_glob t target h⟩
  · intro t h1 h2
    have hne : t.isEmpty = false := by
      cases t with
      | nil => exact absurd rfl h1
      | cons c cs => rfl
    simp only [process_wildcard_search, hne, Bool.false_eq_true, if_false]
    rw [if_pos h2]
  · intro t h1 h2
    have hne : t.isEmpty = false := by
      cases t with
      | nil => exact absurd rfl h1
      | cons c cs => rfl
    simp only [process_wildcard_search, hne, Bool.false_eq_true, if_false]
    rw [if_neg (by rw [h2]; exact Bool.false_ne_true)]

/-- Witness for `wildcard_translate_amended`: the wildcard branch at the
term `"pasta*"`, and the literal-glob agreement at the `'.'`-free term
`"tomato"` against the target `"xTomatoy"`. -/
theorem wildcard_translate_amended_witness :
    process_wildcard_search (some "pasta*".data)
      = some (Q.iregex (wildPattern (pyStrip "pasta*".data))) ∧
    iregexMatch (wildPattern "tomato".data) "xTomatoy".data
      = specGlobSearch "tomato".data "xTomatoy".data :=
  ⟨wildcard_translate_amended.2.2.1 "pasta*".data (by decide) (by decide),
    wildcard_translate_amended.2.2.2.2 "tomato".data "xTomatoy".data (by decide)⟩

/-- C4 counterexample: the claim says the predicate for `"pasta?"`
matches neither `"pasta"` nor `"pastass"`; but the `iregex` search is
unanchored, so the pattern `"pasta."` matches inside `"pastass"` (at its
first six characters).  The translator's predicate therefore does match
the name `"pastass"`. -/
theorem pasta_question_counterexample :
    process_wildcard_search (some "pasta?".data) = some (Q.iregex "pasta.".data) ∧
    evalQ (Q.iregex "pasta.".data)
      { id := 8, name := "pastass".data, short_description := [],
        ingredients := "x".data, cooking_time := 1, difficulty := none } = true :=
  ⟨by decide, by decide⟩

/-- C4 (amended): `"pasta*"` translates to the pattern `"pasta.*"`,
which matches `"pasta"`, `"pastas"` and `"pasta-bake"` but not
`"pizza"`; `"pasta?"` translates to `"pasta."`, which matches every
six-character string made of `"pasta"` plus exactly one more character
and does not match `"pasta"` alone, but — the search being unanchored —
it DOES match `"pastass"` (and any other string with six or more
characters starting `"pasta"`). -/
theorem pasta_wildcard_semantics :
    process_wildcard_search (some "pasta*".data)
      = some (Q.iregex "pasta.*".data) ∧
    iregexMatch "pasta.*".data "pasta".data = true ∧
    iregexMatch "pasta.*".data "pastas".data = true ∧
    iregexMatch "pasta.*".data "pasta-bake".data = true ∧
    iregexMatch "pasta.*".data "pizza".data = false ∧
    process_wildcard_search (some "pasta?".data)
      = some (Q.iregex "pasta.".data) ∧
    (∀ c : Char, iregexMatch "pasta.".data ['p', 'a', 's', 't', 'a', c] = true) ∧
    iregexMatch "pasta.".data "pasta".data = false ∧
    iregexMatch "pasta.".data "pastass".data = true := by
  refine ⟨by decide, by decide, by decide, by decide, by decide, by decide,
    ?_, by decide, by decide⟩
  intro c
  show rsearchToks (rtokens "pasta.".data) ['p', 'a', 's', 't', 'a', c] = true
  rw [show rtokens "pasta.".data
      = [RTok.one 'p', RTok.one 'a', RTok.one 's', RTok.one 't', RTok.one 'a',
          RTok.one '.'] from rfl]
  simp [rsearchToks, rtMatch, pchar]

/-- C5: when the POST's `search_action` is `"show_all"`, the view skips
the whole filter block, so every record matches the resulting query, no
matter what name, ingredients, cooking-time or difficulty criteria the
POST carries. -/
theorem show_all_ignores_filters (p : SearchPost) (r : Recipe)
    (h : p.search_action = some "show_all".data) :
    recipe_search_matches p r = Except.ok true := by
  unfold recipe_search_matches
  rw [h]
  rw [if_neg (by decide)]

/-- Witness for `show_all_ignores_filters`: a `show_all` POST carrying a
difficulty filter still matches a record of a different difficulty. -/
theorem show_all_ignores_filters_witness :
    recipe_search_matches
      { search_action := some "show_all".data, recipe_name := none,
        ingredients := none, cooking_time_max := none,
        difficulty := some "Hard".data } pizzaMargherita = Except.ok true :=
  show_all_ignores_filters _ pizzaMargherita rfl

/-- C6: in filtered mode the ingredients criterion is split on `','`,
each piece trimmed and empties discarded, and the per-token predicates
(wildcard pattern or case-insensitive substring on the ingredients
field) are ANDed; in particular `"tomato,cheese"` matches exactly the
records whose ingredients contain both `"tomato"` and `"cheese"` as
case-insensitive substrings. -/
theorem ingredients_filter_and_semantics (r : Recipe) :
    (∀ ing : List Char,
      recipe_search_matches
        { search_action := some "search".data, recipe_name := none,
          ingredients := some ing, cooking_time_max := none,
          difficulty := none } r
        = Except.ok
            ((((pySplit ',' ing).map pyStrip).filter (fun t => !t.isEmpty)).all
              (fun tok => ingredientTokenPred tok r))) ∧
    recipe_search_matches
      { search_action := some "search".data, recipe_name := none,
        ingredients := some "tomato,cheese".data, cooking_time_max := none,
        difficulty := none } r
      = Except.ok (pySubstr (pyLower "tomato".data) (pyLower r.ingredients)
          && pySubstr (pyLower "cheese".data) (pyLower r.ingredients)) := by
  have hgen : ∀ ing : List Char,
      recipe_search_matches
        { search_action := some "search".data, recipe_name := none,
          ingredients := some ing, cooking_time_max := none,
          difficulty := none } r
        = Except.ok
            ((((pySplit ',' ing).map pyStrip).filter (fun t => !t.isEmpty)).all
              (fun tok => ingredientTokenPred tok r)) := by
    intro ing
    cases ing with
    | nil => rfl
    | cons c cs => simp [recipe_search_matches, truthy]
  refine ⟨hgen, ?_⟩
  rw [hgen "tomato,cheese".data]
  rw [show ((pySplit ',' "tomato,cheese".data).map pyStrip).filter
      (fun t => !t.isEmpty) = ["tomato".data, "cheese".data] from rfl]
  simp [ingredientTokenPred]

/-- C7: a POST in filtered mode whose `cooking_time_max` is the
non-numeric string `"abc"` makes the view call `int("abc")`, which
raises `ValueError` — the search crashes for every record set instead of
being rejected as a validation failure (the view never runs the search
form's `IntegerField` validation). -/
theorem nonnumeric_cooking_time_crash (r : Recipe) :
    recipe_search_matches
      { search_action := some "search".data, recipe_name := none,
        ingredients := none, cooking_time_max := some "abc".data,
        difficulty := none } r = Except.error () := rfl
